import Mathlib

/-!
Verification of the HA → Netease-IoT bridge (`ha-163-plug`).

The definitions below are a shallow embedding of the Python sources:
- `src/ha_to_163/iot_push/iot_client.py` (credential derivation, session
  state, state cache, reconnect backoff, reconciliation, translation), and
- `src/ha_to_163/device_discovery/ha_discovery.py` (entity discovery and
  the property mapper).

Machine integers are modelled as `Nat` with explicit `% 2^32` where the
SHA-256 arithmetic wraps; Python dictionaries are modelled as ordered
association lists with in-place update, matching Python's insertion-order
and overwrite semantics.
-/

set_option maxRecDepth 100000

namespace Ha163

/-! ### Bytes, SHA-256 and HMAC

Faithful model of Python's `hashlib.sha256` and `hmac.new(key, msg,
hashlib.sha256)` over byte lists (`List Nat`, each entry < 256), used by
`_generate_mqtt_password`. -/

/-- Addition on 32-bit words, wrapping. -/
def add32 (a b : Nat) : Nat := (a + b) % 4294967296

/-- Rotate a 32-bit word right by n bits. -/
def rotr (n x : Nat) : Nat :=
  ((x >>> n) ||| (x <<< (32 - n))) % 4294967296

def bigS0 (x : Nat) : Nat := Nat.xor (Nat.xor (rotr 2 x) (rotr 13 x)) (rotr 22 x)

def bigS1 (x : Nat) : Nat := Nat.xor (Nat.xor (rotr 6 x) (rotr 11 x)) (rotr 25 x)

def smS0 (x : Nat) : Nat := Nat.xor (Nat.xor (rotr 7 x) (rotr 18 x)) (x >>> 3)

def smS1 (x : Nat) : Nat := Nat.xor (Nat.xor (rotr 17 x) (rotr 19 x)) (x >>> 10)

def chF (e f g : Nat) : Nat :=
  Nat.xor (Nat.land e f) (Nat.land (Nat.xor e 4294967295) g)

def majF (a b c : Nat) : Nat :=
  Nat.xor (Nat.xor (Nat.land a b) (Nat.land a c)) (Nat.land b c)

/-- The SHA-256 round constants. -/
def K256 : List Nat :=
  [1116352408, 1899447441, 3049323471, 3921009573, 961987163, 1508970993,
   2453635748, 2870763221, 3624381080, 310598401, 607225278, 1426881987,
   1925078388, 2162078206, 2614888103, 3248222580, 3835390401, 4022224774,
   264347078, 604807628, 770255983, 1249150122, 1555081692, 1996064986,
   2554220882, 2821834349, 2952996808, 3210313671, 3336571891, 3584528711,
   113926993, 338241895, 666307205, 773529912, 1294757372, 1396182291,
   1695183700, 1986661051, 2177026350, 2456956037, 2730485921, 2820302411,
   3259730800, 3345764771, 3516065817, 3600352804, 4094571909, 275423344,
   430227734, 506948616, 659060556, 883997877, 958139571, 1322822218,
   1537002063, 1747873779, 1955562222, 2024104815, 2227730452, 2361852424,
   2428436474, 2756734187, 3204031479, 3329325298]

/-- Extend the 16-word message schedule to 64 words. -/
def extendW : Nat → List Nat → List Nat
  | 0, acc => acc
  | n+1, acc =>
      let i := acc.length
      let w := add32 (add32 (smS1 (acc.getD (i-2) 0)) (acc.getD (i-7) 0))
                     (add32 (smS0 (acc.getD (i-15) 0)) (acc.getD (i-16) 0))
      extendW n (acc ++ [w])

/-- The eight 32-bit words of SHA-256 working state. -/
structure H8 where
  a : Nat
  b : Nat
  c : Nat
  d : Nat
  e : Nat
  f : Nat
  g : Nat
  h : Nat
deriving DecidableEq

/-- One SHA-256 round. -/
def roundStep (st : H8) (kw : Nat × Nat) : H8 :=
  let t1 := add32 st.h (add32 (bigS1 st.e) (add32 (chF st.e st.f st.g) (add32 kw.1 kw.2)))
  let t2 := add32 (bigS0 st.a) (majF st.a st.b st.c)
  ⟨add32 t1 t2, st.a, st.b, st.c, add32 st.d t1, st.e, st.f, st.g⟩

/-- SHA-256 compression of one 64-byte block. -/
def compress (st : H8) (block : List Nat) : H8 :=
  let w16 := (List.range 16).map fun i =>
    (block.getD (4*i) 0) <<< 24 ||| (block.getD (4*i+1) 0) <<< 16 |||
    (block.getD (4*i+2) 0) <<< 8 ||| (block.getD (4*i+3) 0)
  let w := extendW 48 w16
  let fin := (K256.zip w).foldl roundStep st
  ⟨add32 st.a fin.a, add32 st.b fin.b, add32 st.c fin.c, add32 st.d fin.d,
   add32 st.e fin.e, add32 st.f fin.f, add32 st.g fin.g, add32 st.h fin.h⟩

/-- The SHA-256 initial hash value. -/
def initH : H8 :=
  ⟨1779033703, 3144134277, 1013904242, 2773480762, 1359893119, 2600822924, 528734635, 1541459225⟩

/-- Split a byte list into 64-byte blocks (explicit fuel keeps the
recursion structural so the kernel can evaluate it). -/
def chunks64F : Nat → List Nat → List (List Nat)
  | 0, _ => []
  | _, [] => []
  | fuel+1, l => l.take 64 :: chunks64F fuel (l.drop 64)

def chunks64 (l : List Nat) : List (List Nat) := chunks64F l.length l

/-- SHA-256 padding: append 128, zeros, and the 64-bit bit length. -/
def shaPad (msg : List Nat) : List Nat :=
  let len := msg.length
  let bitLen := 8 * len
  let padZeros := (119 - (len % 64)) % 64
  msg ++ [128] ++ List.replicate padZeros 0 ++
    [(bitLen >>> 56) % 256, (bitLen >>> 48) % 256, (bitLen >>> 40) % 256, (bitLen >>> 32) % 256,
     (bitLen >>> 24) % 256, (bitLen >>> 16) % 256, (bitLen >>> 8) % 256, bitLen % 256]

/-- Big-endian bytes of a 32-bit word. -/
def word2bytes (x : Nat) : List Nat :=
  [(x >>> 24) % 256, (x >>> 16) % 256, (x >>> 8) % 256, x % 256]

/-- SHA-256 of a byte message. -/
def sha256 (msg : List Nat) : List Nat :=
  let fin := (chunks64 (shaPad msg)).foldl compress initH
  word2bytes fin.a ++ word2bytes fin.b ++ word2bytes fin.c ++ word2bytes fin.d ++
  word2bytes fin.e ++ word2bytes fin.f ++ word2bytes fin.g ++ word2bytes fin.h

/-- HMAC-SHA256 with a 64-byte block, as in Python's `hmac` module. -/
def hmacSha256 (key msg : List Nat) : List Nat :=
  let k0 := if key.length > 64 then sha256 key else key
  let k := k0 ++ List.replicate (64 - k0.length) 0
  let ipadKey := k.map (Nat.xor 54)
  let opadKey := k.map (Nat.xor 92)
  sha256 (opadKey ++ sha256 (ipadKey ++ msg))

/-- UTF-8 encoding of one code point, as in Python's `str.encode`. -/
def utf8Bytes (c : Nat) : List Nat :=
  if c < 128 then [c]
  else if c < 2048 then [192 ||| (c >>> 6), 128 ||| (Nat.land c 63)]
  else if c < 65536 then
    [224 ||| (c >>> 12), 128 ||| (Nat.land (c >>> 6) 63), 128 ||| (Nat.land c 63)]
  else
    [240 ||| (c >>> 18), 128 ||| (Nat.land (c >>> 12) 63),
     128 ||| (Nat.land (c >>> 6) 63), 128 ||| (Nat.land c 63)]

/-- UTF-8 bytes of a string (`s.encode("utf-8")`). -/
def strBytes (s : String) : List Nat :=
  s.data.foldr (fun c acc => utf8Bytes c.toNat ++ acc) []

/-- Decimal ASCII digits of a natural number, with fuel. -/
def decDigitsF : Nat → Nat → List Nat
  | 0, _ => []
  | fuel+1, n => if n < 10 then [48 + n] else decDigitsF fuel (n / 10) ++ [48 + n % 10]

/-- ASCII bytes of `str(n)` for a natural number `n`. -/
def decRepr (n : Nat) : List Nat := decDigitsF (n + 1) n

/-- Uppercase hexadecimal digit. -/
def hexDigitUpper (n : Nat) : Char :=
  if n < 10 then Char.ofNat (48 + n) else Char.ofNat (55 + n)

/-- Uppercase hex string of a byte list (`bytes.hex().upper()`). -/
def bytesToHexUpper (bs : List Nat) : String :=
  String.mk (bs.foldr (fun b acc => hexDigitUpper (b / 16) :: hexDigitUpper (b % 16) :: acc) [])

/-! ### Credential Deriver (`_generate_mqtt_password`)

`iot_client.py` lines 80-101: `counter = int(time.time()) // 300`,
`token = hmac.new(secret, str(counter), sha256).digest()[:10].hex().upper()`,
`password = "v1:" + token`.  The NTP re-sync side effect does not change
the derived value and is not modelled. -/

/-- Credential as a function of the window counter. -/
def credOfCounter (secret : String) (counter : Nat) : String :=
  "v1:" ++ bytesToHexUpper (List.take 10 (hmacSha256 (strBytes secret) (decRepr counter)))

/-- The credential derivation of `_generate_mqtt_password`, as a function
of the device secret and the current unix time. -/
def generate_mqtt_password (secret : String) (now : Nat) : String :=
  credOfCounter secret (now / 300)

/-- The derivation body wrapped in its `try`/`raise` structure: every step
of the source body (counter, encode, hmac, truncate, hex, tag) is total,
so the result is always `ok`; no step can raise for any secret, empty or
not, and no `ConfigurationError` exists anywhere in the repository. -/
def generate_mqtt_passwordE (secret : String) (now : Nat) : Except String String :=
  Except.ok (generate_mqtt_password secret now)

/-- Restatement of §4.1 of the spec in its own words: the credential is
the version-prefixed hex encoding of the first 10 bytes of an HMAC-SHA256
of the window counter `floor(T / window)` keyed by the secret, with a
300-second window. -/
def credentialSpec (secret : String) (t : Nat) : String :=
  "v1:" ++ bytesToHexUpper (List.take 10 (hmacSha256 (strBytes secret) (decRepr (t / 300))))

/-! ### Python values and dictionaries

`Val` models the Python values that flow through the bridge: `None`,
booleans, ints, floats (as rationals) and strings.  Dictionaries are
ordered association lists with in-place overwrite, matching Python's
insertion-order semantics. -/

inductive Val where
  | vNone : Val
  | vBool : Bool → Val
  | vInt : Int → Val
  | vRat : Rat → Val
  | vStr : String → Val
deriving DecidableEq

/-- Numeric view of a value: Python treats `bool` as an int and compares
ints and floats by value. -/
def pyNum? : Val → Option Rat
  | Val.vBool b => some (if b then 1 else 0)
  | Val.vInt n => some n
  | Val.vRat q => some q
  | _ => none

/-- Python `==`: numeric cross-type equality, structural otherwise. -/
def pyEq (a b : Val) : Bool :=
  match pyNum? a, pyNum? b with
  | some x, some y => x == y
  | _, _ => a == b

/-- Python `in` for a list of constants. -/
def pyMember (v : Val) (l : List Val) : Bool := l.any (pyEq v)

/-- A Python dict as an ordered association list. -/
abbrev Dict (V : Type) := List (String × V)

/-- `d[k] = v`: overwrite in place if the key exists, else append. -/
def dinsert {V : Type} : Dict V → String → V → Dict V
  | [], k, v => [(k, v)]
  | (k', v') :: rest, k, v =>
      if k' = k then (k', v) :: rest else (k', v') :: dinsert rest k v

/-- Dict lookup (first binding of the key). -/
def dlookup {V : Type} : Dict V → String → Option V
  | [], _ => none
  | (k', v') :: rest, k => if k' = k then some v' else dlookup rest k

/-- `a.update(b)` / `{**a, **b}`: apply the bindings of `b` to `a` in
order; later bindings win. -/
def dupdate {V : Type} (a b : Dict V) : Dict V :=
  b.foldl (fun acc kv => dinsert acc kv.1 kv.2) a

/-- `del d[k]` (no-op when the key is absent). -/
def dremove {V : Type} (d : Dict V) (k : String) : Dict V :=
  d.filter (fun kv => kv.1 ≠ k)

/-! ### Translation Layer

`_convert_ha_data` (HA value → IoT wire value, per key) and the value
mapping inside `_sync_to_ha_with_prefix` (IoT wire value → HA state, per
parameter). -/

/-- The seven switch-channel parameter names. -/
def switchKeys : List String :=
  ["state0", "state1", "state2", "state3", "state4", "state5", "state6"]

/-- The numeric sensor parameter names of `_convert_ha_data`. -/
def sensorKeys : List String := ["active_power", "current", "voltage", "energy"]

/-- The truthy constants of `value in [1, "1", "on", True, "True"]`. -/
def switchTruthy : List Val :=
  [Val.vInt 1, Val.vStr "1", Val.vStr "on", Val.vBool true, Val.vStr "True"]

/-- Best-effort decimal parse, modelling Python `float(s)` on plain
decimal literals (optional sign, digits, optional fraction); other
strings fail the parse. -/
def parseDecimal? (s : String) : Option Rat :=
  let step : List Char → Option Rat := fun cs =>
    let isDigit : Char → Bool := fun c => 48 ≤ c.toNat && c.toNat ≤ 57
    let dval : List Char → Nat := fun ds => ds.foldl (fun a c => 10 * a + (c.toNat - 48)) 0
    match cs.splitOn '.' with
    | [ip] => if !ip.isEmpty && ip.all isDigit then some (dval ip) else none
    | [ip, fp] =>
        if ip.all isDigit && fp.all isDigit && (!ip.isEmpty || !fp.isEmpty) then
          some ((dval ip : Rat) + (dval fp : Rat) / ((10 : Rat) ^ fp.length))
        else none
    | _ => none
  match s.data with
  | '-' :: r => (step r).map (fun q => -q)
  | '+' :: r => step r
  | r => step r

/-- Python `float(value)`: numeric values pass through, strings are
parsed best-effort, `None` has no float. -/
def floatOfVal? : Val → Option Rat
  | Val.vBool b => some (if b then 1 else 0)
  | Val.vInt n => some n
  | Val.vRat q => some q
  | Val.vStr s => parseDecimal? s
  | Val.vNone => none

/-- Python `int(value)` for int/float/bool values (truncation toward
zero), 0 otherwise, as in the `default` branch of `_convert_ha_data`. -/
def pyIntOr0 : Val → Int
  | Val.vBool b => if b then 1 else 0
  | Val.vInt n => n
  | Val.vRat q => if 0 ≤ q then ⌊q⌋ else -⌊-q⌋
  | _ => 0

/-- The per-key conversion of `_convert_ha_data` (HA → IoT): `none`
means the key is dropped from the converted payload. -/
def haToIotValue (k : String) (v : Val) : Option Val :=
  if v = Val.vNone then none
  else if k ∈ switchKeys then
    some (Val.vInt (if pyMember v switchTruthy then 1 else 0))
  else if k = "default" then
    some (Val.vInt (match v with
      | Val.vStr s =>
          if s = "上电关闭" then 0 else if s = "上电打开" then 1
          else if s = "断电记忆" then 2 else 0
      | w => pyIntOr0 w))
  else if k ∈ sensorKeys then
    (floatOfVal? v).map Val.vRat
  else some v

/-- `_convert_ha_data`: convert a whole payload, dropping unconvertible
entries. -/
def convert_ha_data (d : Dict Val) : Dict Val :=
  d.foldl (fun acc kv =>
    match haToIotValue kv.1 kv.2 with
    | some v' => dinsert acc kv.1 v'
    | none => acc) []

/-- The inbound value mapping of `_sync_to_ha_with_prefix` (IoT → HA
state): switch channels map 1/0 to "on"/"off", `default` maps 0/1/2 to
the power-on option strings (0 as fallback), every other parameter is
read-only and skipped (`none`). -/
def iotToHaValue (param : String) (v : Val) : Option String :=
  if param ∈ switchKeys then
    some (if pyEq v (Val.vInt 1) then "on" else "off")
  else if param = "default" then
    some (if pyEq v (Val.vInt 0) then "上电关闭"
          else if pyEq v (Val.vInt 1) then "上电打开"
          else if pyEq v (Val.vInt 2) then "断电记忆" else "上电关闭")
  else none

/-! ### Session Manager (`NeteaseIoTClient` state)

The mutable fields of `NeteaseIoTClient` that the cache, backoff and
reconciliation logic read and write.  Network success of an individual
publish is an input (`netOk`); emitted property publishes are returned
as a list of converted parameter payloads. -/

structure ClientState where
  connected : Bool
  enabled : Bool
  reconnect_count : Nat
  max_reconnect : Nat
  reconnect_delay : Nat
  failed_reconnect_count : Nat
  sync_on_reconnect : Bool
  cached_states : Dict Val
  pending_states : Dict Val
deriving DecidableEq

/-- The field values set by `__init__`. -/
def initialClient : ClientState :=
  { connected := false, enabled := true, reconnect_count := 0, max_reconnect := 10,
    reconnect_delay := 1, failed_reconnect_count := 0, sync_on_reconnect := true,
    cached_states := [], pending_states := [] }

/-- The boolean result of `_publish`: false when disconnected or
disabled, otherwise the network outcome.  The callers modelled here
ignore this result. -/
def publish_result (s : ClientState) (netOk : Bool) : Bool :=
  s.connected && s.enabled && netOk

/-- `_cache_states`: merge the payload into the last-known cache. -/
def cache_states (s : ClientState) (d : Dict Val) : ClientState :=
  { s with cached_states := dupdate s.cached_states d }

/-- `push_property`: cache the payload, then either queue it in
`pending_states` (not connected or disabled) or publish the converted
payload.  The publish result is not inspected. -/
def push_property (netOk : Bool) (s : ClientState) (ha_data : Dict Val) :
    ClientState × List (Dict Val) :=
  let s1 := cache_states s ha_data
  if !s1.connected || !s1.enabled then
    ({ s1 with pending_states := dupdate s1.pending_states ha_data }, [])
  else
    let params := convert_ha_data ha_data
    let _ok := publish_result s1 netOk
    (s1, [params])

/-- `_sync_all_states_on_reconnect`: publish the union of cached and
pending state in one message, then clear the pending set.  The source
ignores the result of `_publish`, so the pending set is cleared whether
or not the publish was confirmed. -/
def sync_all_states_on_reconnect (netOk : Bool) (s : ClientState) :
    ClientState × List (Dict Val) :=
  let all_states := dupdate s.cached_states s.pending_states
  if all_states.isEmpty then (s, [])
  else
    let params := convert_ha_data all_states
    let _ok := publish_result s netOk
    ({ s with pending_states := [] }, [params])

/-- `_schedule_reconnect`: on exhausted attempts or a disabled device
only bump the cumulative failure counter; otherwise double the delay
(capped at 60) before scheduling the wait.  The scheduled wait (the
value slept on) is returned alongside the state. -/
def schedule_reconnect (s : ClientState) : ClientState × Option Nat :=
  if s.max_reconnect ≤ s.reconnect_count || !s.enabled then
    ({ s with failed_reconnect_count := s.failed_reconnect_count + 1 }, none)
  else
    let s' := if s.reconnect_delay < 60
              then { s with reconnect_delay := min (s.reconnect_delay * 2) 60 }
              else s
    (s', some s'.reconnect_delay)

/-- `_on_connect`: on `rc = 0` mark connected, reset the attempt counter
and the delay, and run reconciliation when cached or pending state
exists (the attempt counter was just reset, so the `reconnect_count > 0`
disjunct is always false at the check).  On failure, increment the
attempt counter; `rc = 4` disables the device, any other code schedules
a reconnect. -/
def on_connect (netOk : Bool) (s : ClientState) (rc : Nat) :
    ClientState × List (Dict Val) × Option Nat :=
  if rc = 0 then
    let s1 := { s with connected := true, reconnect_count := 0, reconnect_delay := 1 }
    if s1.sync_on_reconnect &&
        (decide (0 < s1.reconnect_count) || !s1.cached_states.isEmpty ||
          !s1.pending_states.isEmpty) then
      let r := sync_all_states_on_reconnect netOk s1
      (r.1, r.2, none)
    else (s1, [], none)
  else
    let s1 := { s with connected := false, reconnect_count := s.reconnect_count + 1 }
    if rc = 4 then ({ s1 with enabled := false }, [], none)
    else
      let r := schedule_reconnect s1
      (r.1, [], r.2)

/-- State after one failed connect attempt (rc 3: server unavailable). -/
def failStep (s : ClientState) : ClientState := (on_connect true s 3).1

/-- The delay scheduled by one failed connect attempt. -/
def failDelay (s : ClientState) : Option Nat := (on_connect true s 3).2.2

/-- First-some choice: the value semantics of a Python dict union, the
second operand of the Python dict union winning. -/
def olookup {V : Type} (p c : Option V) : Option V :=
  match p with
  | some v => some v
  | none => c

/-! ### Property Mapper and Discovery Engine (`ha_discovery.py`)

`PROPERTY_MAPPING` is kept in source order: Python dicts iterate in
insertion order and the substring fallback takes the first matching
key, so the order is a deliberate priority list. -/

def PROPERTY_MAPPING : List (String × String) :=
  [("child_lock_p_14_9", "child_lock"),
   ("switch_status_p_10_1", "switch_status"),
   ("toggle_a_2_1", "toggle"),
   ("on_p_2_1", "state0"),
   ("on_p_7_1", "state1"),
   ("on_p_8_1", "state2"),
   ("on_p_9_1", "state3"),
   ("on_p_10_1", "state4"),
   ("on_p_11_1", "state5"),
   ("on_p_12_1", "state6"),
   ("default_power_on_state_p_2_2", "default"),
   ("electric_power_p_2_6", "active_power"),
   ("electric_power_p_", "active_power"),
   ("electric_current_p_", "current"),
   ("electric_current_p_3_4", "current"),
   ("voltage_p_", "voltage"),
   ("power_consumption_p_", "energy"),
   ("power_consumption", "energy"),
   ("power_consumption_accumulation_way_p_3_3", "power_consumption_accumulation_way"),
   ("indicator_light_p_2_4", "indicator_light"),
   ("power", "active_power"),
   ("current", "current"),
   ("energy", "energy")]

/-- Python `needle in hay` on strings: substring containment. -/
def substrB (needle hay : List Char) : Bool :=
  hay.tails.any (fun t => needle.isPrefixOf t)

/-- The characters after the first '.', `none` when there is no dot
(Python `entity_id.split(".", 1)[1]` guarded by `"." in entity_id`). -/
def afterFirstDot : List Char → Option (List Char)
  | [] => none
  | c :: cs => if c = '.' then some cs else afterFirstDot cs

/-- Python `str.replace(needle, "")` for a non-empty needle: remove
non-overlapping occurrences left to right (fuel keeps the recursion
structural; each step consumes at least one character). -/
def replaceAllF : Nat → List Char → List Char → List Char
  | 0, _, hay => hay
  | fuel+1, needle, hay =>
      match hay with
      | [] => []
      | c :: cs =>
          if needle.isPrefixOf hay then replaceAllF fuel needle (hay.drop needle.length)
          else c :: replaceAllF fuel needle cs

/-- Python `hay.replace(needle, "")` (replacing the empty needle by the
empty string leaves the string unchanged). -/
def replaceAll (needle hay : List Char) : List Char :=
  if needle = [] then hay else replaceAllF hay.length needle hay

/-- Python `str.strip("_")`: drop leading and trailing underscores. -/
def stripUnderscore (cs : List Char) : List Char :=
  ((cs.dropWhile (fun c => c = '_')).reverse.dropWhile (fun c => c = '_')).reverse

/-- Look a feature suffix up in `PROPERTY_MAPPING`: exact key match
first, then the first table entry (in table order) whose key is a
substring of the feature. -/
def resolveFeature (feature : List Char) : Option String :=
  match PROPERTY_MAPPING.find? (fun kv => kv.1.data = feature) with
  | some kv => some kv.2
  | none => (PROPERTY_MAPPING.find? (fun kv => substrB kv.1.data feature)).map Prod.snd

/-- The recognized entity domains of `discover_single_device`. -/
def recognizedDomains : List String := ["sensor.", "switch.", "select."]

/-- The per-entity matching of `discover_single_device`: recognized
domain, device prefix contained in the local part, non-empty stripped
feature suffix, suffix table resolution.  `epre` models the device's
`entity_prefix`. -/
def resolveEntity (epre : String) (entity_id : String) : Option String :=
  if !(recognizedDomains.any (fun dm => dm.data.isPrefixOf entity_id.data)) then none
  else
    let core := (afterFirstDot entity_id.data).getD []
    if !(substrB epre.data core) then none
    else
      let feature := stripUnderscore (replaceAll epre.data core)
      if feature = [] then none
      else resolveFeature feature

/-- One step of the sensor-map fold: resolve the entity and keep it when
the resolved property is supported. -/
def mapStep (epre : String) (supported : List String) (m : Dict String) (e : String) :
    Dict String :=
  match resolveEntity epre e with
  | some q => if q ∈ supported then dinsert m q e else m
  | none => m

/-- The `sensor_map` built by `discover_single_device` over the entity
list. -/
def build_sensor_map (epre : String) (supported : List String)
    (entities : List String) : Dict String :=
  entities.foldl (mapStep epre supported) []

/-- A device configuration (`device_id`, `entity_prefix` as `epre`,
`supported_properties`, `enabled`). -/
structure DeviceConfig where
  device_id : String
  epre : String
  supported_properties : List String
  enabled : Bool
deriving DecidableEq

/-- The per-device discovery result stored in `discovered_devices`. -/
structure DeviceResult where
  device_id : String
  config : DeviceConfig
  sensors : Dict String
deriving DecidableEq

/-- The mutable state of `HADiscovery`. -/
structure DiscoveryState where
  entities : List String
  failed_devices : Dict Nat
  discovered_devices : Dict DeviceResult
deriving DecidableEq

/-- `discover_single_device`: build the sensor map from the currently
loaded entities; on success store the result and drop the device from
the failure record, on zero matches record the failure timestamp and
leave `discovered_devices` untouched. -/
def discover_single_device (st : DiscoveryState) (cfg : DeviceConfig) (now : Nat) :
    DiscoveryState × Option DeviceResult :=
  let sensor_map := build_sensor_map cfg.epre cfg.supported_properties st.entities
  if sensor_map.isEmpty then
    ({ st with failed_devices := dinsert st.failed_devices cfg.device_id now }, none)
  else
    let device_result : DeviceResult := ⟨cfg.device_id, cfg, sensor_map⟩
    ({ st with
        discovered_devices := dinsert st.discovered_devices cfg.device_id device_result,
        failed_devices := dremove st.failed_devices cfg.device_id },
     some device_result)

/-- The per-config loop of `discover_all_devices`: skip disabled
devices, collect successful results into `matched_devices`. -/
def discover_fold (now : Nat) :
    List DeviceConfig → DiscoveryState → Dict DeviceResult →
      DiscoveryState × Dict DeviceResult
  | [], st, matched => (st, matched)
  | cfg :: rest, st, matched =>
      if cfg.enabled = false then discover_fold now rest st matched
      else
        let st2 := (discover_single_device st cfg now).1
        match (discover_single_device st cfg now).2 with
        | some res => discover_fold now rest st2 (dinsert matched cfg.device_id res)
        | none => discover_fold now rest st2 matched

/-- `discover_all_devices`: when the entity list cannot be loaded
(`loadOk = false`), return the cached `discovered_devices` with the
state untouched; otherwise store the fresh snapshot and run per-device
discovery. -/
def discover_all_devices (st : DiscoveryState) (cfgs : List DeviceConfig)
    (loadOk : Bool) (newEntities : List String) (now : Nat) :
    DiscoveryState × Dict DeviceResult :=
  if loadOk = false then (st, st.discovered_devices)
  else discover_fold now cfgs { st with entities := newEntities } []

/-- `get_discovered_devices` (the Python `.copy()` is identity here). -/
def get_discovered_devices (st : DiscoveryState) : Dict DeviceResult :=
  st.discovered_devices

/-- The matching predicate of the Property Mapper for a fixed property
name, as a Boolean on entities. -/
def matchesB (epre : String) (supported : List String) (p : String) (e : String) : Bool :=
  (resolveEntity epre e == some p) && decide (p ∈ supported)

def c7cfg : DeviceConfig := ⟨"devA", "dev_a", ["state1"], true⟩

def c7res : DeviceResult := ⟨"devA", c7cfg, [("state1", "switch.dev_a_on_p_7_1")]⟩

def c7st : DiscoveryState := ⟨[], [], [("devA", c7res)]⟩

def c10cfg : DeviceConfig := ⟨"devA", "dev_a", ["state1"], true⟩

def c10res : DeviceResult := ⟨"devA", c10cfg, [("state1", "switch.dev_a_on_p_7_1")]⟩

def c10st : DiscoveryState := ⟨["sensor.other"], [], [("devA", c10res)]⟩

/-! ### Theorems -/

/-- C4 (counterexample): the claim asserts that for EVERY time T the
derivations at T and T+299 agree; at T = 299 the window counter changes
between 299 and 598 (`299/300 = 0`, `598/300 = 1`), and the two derived
credentials differ. -/
theorem c4_counterexample :
    ¬ (generate_mqtt_password "secret" 299 = generate_mqtt_password "secret" (299 + 299)) := by
  decide

/-- C4 (amended): for every non-empty secret, the derived credential is
the version-prefixed uppercase hex of the first 10 bytes of an
HMAC-SHA256 of the window counter `floor(T/300)` keyed by the secret;
derivations at T and T+299 agree whenever T is window-aligned (T a
multiple of 300, so both times share a window), T+301 always falls in a
different window, and concretely at T = 300 the derivations at T and
T+301 yield different credentials. -/
theorem c4_credential_window (secret : String) (t : Nat)
    (_hs : secret ≠ "") (h : t % 300 = 0) :
    generate_mqtt_password secret t = credentialSpec secret t ∧
    generate_mqtt_password secret t = generate_mqtt_password secret (t + 299) ∧
    (t + 301) / 300 ≠ t / 300 ∧
    generate_mqtt_password "secret" 300 ≠ generate_mqtt_password "secret" (300 + 301) := by
  refine ⟨rfl, ?_, by omega, by decide⟩
  unfold generate_mqtt_password
  have hdiv : (t + 299) / 300 = t / 300 := by omega
  rw [hdiv]

/-- C4 (witness): the amended window theorem applied at the concrete
aligned time T = 300 with the secret "secret". -/
theorem c4_witness :
    generate_mqtt_password "secret" 300 = generate_mqtt_password "secret" (300 + 299) :=
  (c4_credential_window "secret" 300 (by decide) (by decide)).2.1

/-- C5 (counterexample): derivation with an empty device secret does not
fail; at time 0 it returns an ordinary credential (HMAC-SHA256 keyed by
the empty byte string), refuting "fails with a ConfigurationError (it
does not return a credential)". -/
theorem c5_counterexample :
    generate_mqtt_passwordE "" 0 = Except.ok "v1:9979E4C3EE19965F9ECC" := by
  rfl

/-- C5 (amended): for every time, credential derivation with an empty
device secret succeeds and returns a version-prefixed credential; the
body has no empty-secret check and no ConfigurationError exists in the
repository (the only guard is outside the deriver, in client
initialization, which skips connecting when a secret is missing). -/
theorem c5_empty_secret_succeeds (now : Nat) :
    ∃ tok, generate_mqtt_passwordE "" now = Except.ok ("v1:" ++ tok) :=
  ⟨bytesToHexUpper (List.take 10 (hmacSha256 (strBytes "") (decRepr (now / 300)))), rfl⟩

/-! ### Dictionary lemmas -/

theorem dinsert_ne_nil {V : Type} (l : Dict V) (k : String) (v : V) :
    dinsert l k v ≠ [] := by
  cases l with
  | nil => simp [dinsert]
  | cons hd tl =>
      simp only [dinsert]
      split <;> simp

theorem dlookup_dinsert {V : Type} (l : Dict V) (k : String) (v : V) (k' : String) :
    dlookup (dinsert l k v) k' = if k' = k then some v else dlookup l k' := by
  induction l with
  | nil =>
      simp only [dinsert, dlookup]
      by_cases h : k' = k
      · simp [h]
      · rw [if_neg (fun hh : k = k' => h hh.symm), if_neg h]
  | cons hd tl ih =>
      obtain ⟨k0, v0⟩ := hd
      simp only [dinsert]
      by_cases h0 : k0 = k
      · subst h0
        simp only [dlookup]
        by_cases h : k0 = k'
        · rw [if_pos h, if_pos h.symm]
        · rw [if_neg h, if_neg (fun hh : k' = k0 => h hh.symm), if_neg h]
      · rw [if_neg h0]
        by_cases h : k' = k0
        · subst h
          have hk : ¬ k' = k := fun hh => h0 (hh ▸ rfl)
          simp [dlookup, hk]
        · simp only [dlookup, if_neg (fun hh : k0 = k' => h (Eq.symm hh))]
          exact ih

theorem keys_dinsert {V : Type} (l : Dict V) (k : String) (v : V) :
    (dinsert l k v).map Prod.fst =
      if k ∈ l.map Prod.fst then l.map Prod.fst else l.map Prod.fst ++ [k] := by
  induction l with
  | nil => simp [dinsert]
  | cons hd tl ih =>
      obtain ⟨k0, v0⟩ := hd
      simp only [dinsert]
      by_cases h0 : k0 = k
      · subst h0
        simp
      · rw [if_neg h0]
        simp only [List.map_cons, List.mem_cons]
        rw [ih]
        by_cases hm : k ∈ tl.map Prod.fst
        · rw [if_pos hm, if_pos (Or.inr hm)]
        · rw [if_neg hm, if_neg ?_]
          · simp
          · rintro (h | h)
            · exact h0 (Eq.symm h)
            · exact hm h

theorem keys_dinsert_nodup {V : Type} {l : Dict V} (h : (l.map Prod.fst).Nodup)
    (k : String) (v : V) : ((dinsert l k v).map Prod.fst).Nodup := by
  rw [keys_dinsert]
  by_cases hm : k ∈ l.map Prod.fst
  · rw [if_pos hm]; exact h
  · rw [if_neg hm]
    simp [List.nodup_append, h, hm]

theorem dupdate_cons {V : Type} (a : Dict V) (k : String) (v : V) (t : Dict V) :
    dupdate a ((k, v) :: t) = dupdate (dinsert a k v) t := rfl

theorem keys_dupdate_nodup {V : Type} (a b : Dict V) (h : (a.map Prod.fst).Nodup) :
    ((dupdate a b).map Prod.fst).Nodup := by
  induction b generalizing a with
  | nil => exact h
  | cons hd tl ih =>
      obtain ⟨k0, v0⟩ := hd
      rw [dupdate_cons]
      exact ih _ (keys_dinsert_nodup h k0 v0)

theorem dupdate_ne_nil_left {V : Type} (a b : Dict V) (h : a ≠ []) :
    dupdate a b ≠ [] := by
  induction b generalizing a with
  | nil => exact h
  | cons hd tl ih =>
      rw [show dupdate a (hd :: tl) = dupdate (dinsert a hd.1 hd.2) tl from rfl]
      exact ih _ (dinsert_ne_nil a hd.1 hd.2)

theorem dupdate_ne_nil_right {V : Type} (a b : Dict V) (h : b ≠ []) :
    dupdate a b ≠ [] := by
  cases b with
  | nil => exact absurd rfl h
  | cons hd tl =>
      rw [show dupdate a (hd :: tl) = dupdate (dinsert a hd.1 hd.2) tl from rfl]
      exact dupdate_ne_nil_left _ _ (dinsert_ne_nil a hd.1 hd.2)

theorem dlookup_dupdate_not_mem {V : Type} (a b : Dict V) (k : String)
    (h : k ∉ b.map Prod.fst) : dlookup (dupdate a b) k = dlookup a k := by
  induction b generalizing a with
  | nil => rfl
  | cons hd tl ih =>
      obtain ⟨k0, v0⟩ := hd
      simp only [List.map_cons, List.mem_cons] at h
      push_neg at h
      rw [dupdate_cons, ih _ h.2, dlookup_dinsert, if_neg h.1]

theorem dlookup_dupdate {V : Type} (a b : Dict V) (k : String)
    (h : (b.map Prod.fst).Nodup) :
    dlookup (dupdate a b) k = olookup (dlookup b k) (dlookup a k) := by
  induction b generalizing a with
  | nil => rfl
  | cons hd tl ih =>
      obtain ⟨k0, v0⟩ := hd
      simp only [List.map_cons, List.nodup_cons] at h
      rw [dupdate_cons]
      by_cases hk : k0 = k
      · subst hk
        have hnm : k0 ∉ tl.map Prod.fst := h.1
        rw [dlookup_dupdate_not_mem _ _ _ hnm, dlookup_dinsert, if_pos rfl]
        simp [dlookup, olookup]
      · rw [ih _ h.2]
        simp only [dlookup, if_neg hk]
        cases dlookup tl k with
        | none => rw [dlookup_dinsert, if_neg (fun hh : k = k0 => hk hh.symm)]
        | some v => rfl

/-- Reconciliation does not touch the reconnect delay. -/
theorem sync_reconnect_delay (netOk : Bool) (s : ClientState) :
    (sync_all_states_on_reconnect netOk s).1.reconnect_delay = s.reconnect_delay := by
  unfold sync_all_states_on_reconnect
  dsimp only
  split <;> rfl

/-- C2 (counterexample): `_schedule_reconnect` doubles the stored delay
BEFORE the wait, so the very first consecutive failure from the initial
state schedules a wait of 2 time units, not the claimed 1. -/
theorem c2_counterexample :
    failDelay initialClient = some 2 ∧ failDelay initialClient ≠ some 1 := by
  decide

/-- C2 (amended): the stored delay starts at 1 but is doubled (capped at
60) before each scheduled wait, so consecutive connect failures from the
initial state produce the delay sequence [2, 4, 8] and a fourth failure
produces 16, not a reset; in general each consecutive failure schedules
`min (2·delay) 60 ≤ 60`, and a successful connection resets the stored
delay to 1. -/
theorem c2_backoff (netOk : Bool) (s : ClientState) (rc : Nat)
    (hrc0 : rc ≠ 0) (hrc4 : rc ≠ 4) (hen : s.enabled = true)
    (hcnt : s.reconnect_count + 1 < s.max_reconnect) (hdel : s.reconnect_delay < 60) :
    (on_connect netOk s rc).2.2 = some (min (s.reconnect_delay * 2) 60) ∧
    (on_connect netOk s rc).1.reconnect_delay = min (s.reconnect_delay * 2) 60 ∧
    min (s.reconnect_delay * 2) 60 ≤ 60 ∧
    (∀ netOk2 s2, (on_connect netOk2 s2 0).1.reconnect_delay = 1) ∧
    [failDelay initialClient, failDelay (failStep initialClient),
     failDelay (failStep (failStep initialClient)),
     failDelay (failStep (failStep (failStep initialClient)))] =
      [some 2, some 4, some 8, some 16] := by
  have hsch : (on_connect netOk s rc).2.2 = some (min (s.reconnect_delay * 2) 60) ∧
      (on_connect netOk s rc).1.reconnect_delay = min (s.reconnect_delay * 2) 60 := by
    unfold on_connect schedule_reconnect
    rw [if_neg hrc0, if_neg hrc4]
    have hc : ¬ (s.max_reconnect ≤ s.reconnect_count + 1) := by omega
    simp only [hen, Bool.not_true, Bool.or_false, if_neg hc, decide_eq_true_eq]
    rw [if_pos hdel]
    exact ⟨rfl, rfl⟩
  refine ⟨hsch.1, hsch.2, Nat.min_le_right _ _, ?_, by decide⟩
  intro netOk2 s2
  unfold on_connect
  rw [if_pos rfl]
  dsimp only
  split
  · rw [sync_reconnect_delay]
  · rfl

/-- C2 (witness): the backoff theorem applied to the initial client
state with failure code 3 (server unavailable). -/
theorem c2_witness :
    (on_connect true initialClient 3).2.2 =
      some (min (initialClient.reconnect_delay * 2) 60) :=
  (c2_backoff true initialClient 3 (by decide) (by decide) rfl (by decide) (by decide)).1

/-- C6: every `push_property` call updates the last-known cache with the
data no matter whether the network send succeeds (the cache update
precedes the send and the send result is ignored), and every call while
disconnected merges the data into the pending cache and returns without
publishing; the embedding of `push_property` is a total function, so the
call always returns. -/
theorem c6_publish_semantics (netOk : Bool) (s : ClientState) (d : Dict Val) :
    (push_property netOk s d).1.cached_states = dupdate s.cached_states d ∧
    (s.connected = false →
      (push_property netOk s d).1.pending_states = dupdate s.pending_states d ∧
      (push_property netOk s d).2 = []) := by
  constructor
  · unfold push_property cache_states
    dsimp only
    split <;> rfl
  · intro hc
    unfold push_property cache_states
    rw [if_pos (by simp [hc])]
    exact ⟨rfl, rfl⟩

/-- C1 (counterexample): the pending set is cleared even when the
reconciliation publish is NOT confirmed.  Push one entry while
disconnected (pending becomes non-empty), then reconnect with the
network send failing (`netOk = false`, so `_publish` returns false):
the source ignores that result and clears the pending set anyway. -/
theorem c1_counterexample :
    (push_property true initialClient [("state2", Val.vInt 0)]).1.pending_states ≠ [] ∧
    publish_result (on_connect false
        (push_property true initialClient [("state2", Val.vInt 0)]).1 0).1 false = false ∧
    (on_connect false
        (push_property true initialClient [("state2", Val.vInt 0)]).1 0).1.pending_states
      = [] := by
  decide

/-- C1 (amended): publishing data while Disconnected followed by a
reconnect results in exactly one reconciliation publish whose payload is
the converted union of the last-known cache and the pending buffer (the
pending entry wins where both bind a key), and the pending set is
cleared afterward UNCONDITIONALLY — the source ignores the publish
result, so pending entries are cleared even when the publish is not
confirmed (`netOk2` arbitrary, including false). -/
theorem c1_reconciliation (netOk1 netOk2 : Bool) (s : ClientState) (d : Dict Val)
    (hcon : s.connected = false) (hsync : s.sync_on_reconnect = true)
    (hd : d ≠ []) (hnd : (s.pending_states.map Prod.fst).Nodup) :
    (push_property netOk1 s d).2 = [] ∧
    (on_connect netOk2 (push_property netOk1 s d).1 0).2.1 =
      [convert_ha_data (dupdate (push_property netOk1 s d).1.cached_states
                                (push_property netOk1 s d).1.pending_states)] ∧
    (∀ k, dlookup (dupdate (push_property netOk1 s d).1.cached_states
                           (push_property netOk1 s d).1.pending_states) k =
          olookup (dlookup (push_property netOk1 s d).1.pending_states k)
                  (dlookup (push_property netOk1 s d).1.cached_states k)) ∧
    (on_connect netOk2 (push_property netOk1 s d).1 0).1.pending_states = [] := by
  have hpp : push_property netOk1 s d =
      ({ s with cached_states := dupdate s.cached_states d,
                pending_states := dupdate s.pending_states d }, []) := by
    unfold push_property cache_states
    dsimp only
    rw [if_pos (by simp [hcon])]
  rw [hpp]
  dsimp only
  have hpne : dupdate s.pending_states d ≠ [] := dupdate_ne_nil_right _ _ hd
  have hpe : (dupdate s.pending_states d).isEmpty = false := by
    cases h : dupdate s.pending_states d with
    | nil => exact absurd h hpne
    | cons hd tl => rfl
  have hcond : ((({ s with
        cached_states := dupdate s.cached_states d,
        pending_states := dupdate s.pending_states d} : ClientState).sync_on_reconnect) &&
      (decide (0 < 0) || !(dupdate s.cached_states d).isEmpty ||
        !(dupdate s.pending_states d).isEmpty)) = true := by
    simp [hsync, hpe]
  have hall : dupdate (dupdate s.cached_states d) (dupdate s.pending_states d) ≠ [] :=
    dupdate_ne_nil_right _ _ hpne
  have halle : (dupdate (dupdate s.cached_states d) (dupdate s.pending_states d)).isEmpty
      = false := by
    cases h : dupdate (dupdate s.cached_states d) (dupdate s.pending_states d) with
    | nil => exact absurd h hall
    | cons hd tl => rfl
  have hsyncstep : sync_all_states_on_reconnect netOk2
      ({ s with
          connected := true,
          reconnect_count := 0,
          reconnect_delay := 1,
          cached_states := dupdate s.cached_states d,
          pending_states := dupdate s.pending_states d} : ClientState) =
      ({ s with
          connected := true,
          reconnect_count := 0,
          reconnect_delay := 1,
          cached_states := dupdate s.cached_states d,
          pending_states := [] },
       [convert_ha_data (dupdate (dupdate s.cached_states d)
          (dupdate s.pending_states d))]) := by
    unfold sync_all_states_on_reconnect
    dsimp only
    rw [halle]
    rfl
  refine ⟨rfl, ?_, ?_, ?_⟩
  · unfold on_connect
    rw [if_pos rfl]
    try dsimp only
    rw [if_pos hcond, hsyncstep]
  · intro k
    exact dlookup_dupdate (dupdate s.cached_states d) (dupdate s.pending_states d) k
      (keys_dupdate_nodup s.pending_states d hnd)
  · unfold on_connect
    rw [if_pos rfl]
    try dsimp only
    rw [if_pos hcond, hsyncstep]

/-- C1 (witness): the reconciliation theorem applied to the initial
(disconnected) client, a one-entry payload, and an unconfirmed publish
(`netOk2 = false`). -/
theorem c1_witness :
    (push_property true initialClient [("state2", Val.vInt 0)]).2 = [] ∧
    (on_connect false
      (push_property true initialClient [("state2", Val.vInt 0)]).1 0).1.pending_states
        = [] := by
  have h := c1_reconciliation true false initialClient [("state2", Val.vInt 0)]
    rfl rfl (by decide) (by decide)
  exact ⟨h.1, h.2.2.2⟩

/-- C6 (witness): the publish-semantics theorem applied to the initial
(disconnected) client and a one-entry payload. -/
theorem c6_witness :
    (push_property true initialClient [("state1", Val.vInt 1)]).1.cached_states =
        dupdate initialClient.cached_states [("state1", Val.vInt 1)] ∧
    (push_property true initialClient [("state1", Val.vInt 1)]).1.pending_states =
        dupdate initialClient.pending_states [("state1", Val.vInt 1)] := by
  have h := c6_publish_semantics true initialClient [("state1", Val.vInt 1)]
  exact ⟨h.1, (h.2 rfl).1⟩

/-- C9 (counterexample): numeric sensor fields do not round-trip.  The
outbound direction converts `active_power = 5` to the wire value 5, but
the inbound direction of `_sync_to_ha_with_prefix` treats every
non-switch, non-default parameter as read-only and skips it, so no local
value comes back. -/
theorem c9_counterexample :
    haToIotValue "active_power" (Val.vRat 5) = some (Val.vRat 5) ∧
    (haToIotValue "active_power" (Val.vRat 5)).bind (iotToHaValue "active_power") = none := by
  decide

/-- C9 (amended): the round trip holds for the boolean switch fields
(local states "on"/"off") and for the enumerated power-on option
(`default`, three option strings), but NOT for the numeric sensor
fields: the inbound direction skips every sensor parameter as read-only
(`iotToHaValue` is `none`), so numeric fields are one-way. -/
theorem c9_translation_roundtrip (f g st o : String) (v : Val)
    (hf : f ∈ switchKeys) (hst : st = "on" ∨ st = "off")
    (ho : o = "上电关闭" ∨ o = "上电打开" ∨ o = "断电记忆")
    (hg : g ∈ sensorKeys) :
    (haToIotValue f (Val.vStr st)).bind (iotToHaValue f) = some st ∧
    (haToIotValue "default" (Val.vStr o)).bind (iotToHaValue "default") = some o ∧
    iotToHaValue g v = none := by
  refine ⟨?_, ?_, ?_⟩
  · rcases hst with h | h <;> subst h <;>
      simp [haToIotValue, iotToHaValue, hf, pyMember, pyEq, pyNum?, switchTruthy]
  · rcases ho with h | h | h <;> subst h <;> decide
  · have hgs : g = "active_power" ∨ g = "current" ∨ g = "voltage" ∨ g = "energy" := by
      simpa [sensorKeys] using hg
    have hns : g ∉ switchKeys := by
      rcases hgs with h | h | h | h <;> subst h <;> decide
    have hnd : g ≠ "default" := by
      rcases hgs with h | h | h | h <;> subst h <;> decide
    simp [iotToHaValue, hns, hnd]

/-- C9 (witness): the translation theorem applied to the switch channel
`state1` with state "on", the option "上电打开", and the sensor field
`current` with wire value 7. -/
theorem c9_witness :
    (haToIotValue "state1" (Val.vStr "on")).bind (iotToHaValue "state1") = some "on" ∧
    iotToHaValue "current" (Val.vRat 7) = none := by
  have h := c9_translation_roundtrip "state1" "current" "on" "上电打开" (Val.vRat 7)
    (by decide) (Or.inl rfl) (Or.inr (Or.inl rfl)) (by decide)
  exact ⟨h.1, h.2.2⟩

/-- C7: when the remote entity snapshot cannot be obtained,
`discover_all_devices` returns the previously cached discovery result
unchanged (and in particular a non-empty cache is never replaced by an
empty result). -/
theorem c7_snapshot_failure (st : DiscoveryState) (cfgs : List DeviceConfig)
    (ents : List String) (now : Nat) :
    discover_all_devices st cfgs false ents now = (st, st.discovered_devices) ∧
    (st.discovered_devices ≠ [] →
      (discover_all_devices st cfgs false ents now).2 ≠ []) := by
  exact ⟨rfl, fun h => h⟩

/-- C7 (witness): the snapshot-failure theorem applied to a state with
one cached device. -/
theorem c7_witness : (discover_all_devices c7st [] false [] 0).2 ≠ [] :=
  (c7_snapshot_failure c7st [] [] 0).2 (by decide)

/-- `discover_single_device` never changes the loaded entity list. -/
theorem discover_single_entities (st : DiscoveryState) (cfg : DeviceConfig) (now : Nat) :
    (discover_single_device st cfg now).1.entities = st.entities := by
  unfold discover_single_device
  dsimp only
  split <;> rfl

/-- The result of `discover_single_device` depends only on the loaded
entity list and the configuration. -/
theorem discover_single_result_eq (st st' : DiscoveryState) (cfg : DeviceConfig)
    (now now' : Nat) (h : st.entities = st'.entities) :
    (discover_single_device st cfg now).2 = (discover_single_device st' cfg now').2 := by
  unfold discover_single_device
  dsimp only
  rw [h]
  split <;> rfl

/-- The discovery loop never changes the loaded entity list. -/
theorem discover_fold_entities (now : Nat) (cfgs : List DeviceConfig)
    (st : DiscoveryState) (m : Dict DeviceResult) :
    (discover_fold now cfgs st m).1.entities = st.entities := by
  induction cfgs generalizing st m with
  | nil => rfl
  | cons cfg rest ih =>
      unfold discover_fold
      by_cases he : cfg.enabled = false
      · rw [if_pos he]; exact ih st m
      · rw [if_neg he]
        dsimp only
        cases hr : (discover_single_device st cfg now).2 with
        | some res =>
            dsimp only
            rw [ih]
            exact discover_single_entities st cfg now
        | none =>
            dsimp only
            rw [ih]
            exact discover_single_entities st cfg now

/-- The matched-device result of the discovery loop depends only on the
loaded entity list, the configurations and the accumulator. -/
theorem discover_fold_result_eq (now now' : Nat) (cfgs : List DeviceConfig)
    (st st' : DiscoveryState) (m : Dict DeviceResult) (h : st.entities = st'.entities) :
    (discover_fold now cfgs st m).2 = (discover_fold now' cfgs st' m).2 := by
  induction cfgs generalizing st st' m with
  | nil => rfl
  | cons cfg rest ih =>
      unfold discover_fold
      by_cases he : cfg.enabled = false
      · rw [if_pos he, if_pos he]; exact ih st st' m h
      · rw [if_neg he, if_neg he]
        dsimp only
        have hres := discover_single_result_eq st st' cfg now now' h
        have hent : (discover_single_device st cfg now).1.entities =
            (discover_single_device st' cfg now').1.entities := by
          rw [discover_single_entities, discover_single_entities, h]
        cases hr : (discover_single_device st' cfg now').2 with
        | some res =>
            rw [hres, hr]
            dsimp only
            exact ih _ _ _ hent
        | none =>
            rw [hres, hr]
            dsimp only
            exact ih _ _ _ hent

/-- C8: with an unchanged entity snapshot and unchanged configuration,
running discovery a second time yields exactly the matched-device map of
the first run. -/
theorem c8_discovery_idempotent (st : DiscoveryState) (cfgs : List DeviceConfig)
    (ents : List String) (now now' : Nat) :
    (discover_all_devices ((discover_all_devices st cfgs true ents now).1) cfgs true
        ents now').2 = (discover_all_devices st cfgs true ents now).2 := by
  have h1 : discover_all_devices st cfgs true ents now =
      discover_fold now cfgs { st with entities := ents } [] := rfl
  have h2 : discover_all_devices ((discover_all_devices st cfgs true ents now).1) cfgs
        true ents now' =
      discover_fold now' cfgs
        { (discover_all_devices st cfgs true ents now).1 with entities := ents } [] := rfl
  rw [h1] at h2
  rw [h1, h2]
  exact discover_fold_result_eq now' now cfgs _ _ [] rfl

/-- C10: a previously discovered device whose rediscovery matches zero
entities keeps its stale entry in `discovered_devices` (still served by
`get_discovered_devices`) while simultaneously being recorded in the
failure record with the current timestamp. -/
theorem c10_stale_mapping_retained (st : DiscoveryState) (cfg : DeviceConfig)
    (now : Nat) (r : DeviceResult)
    (hprev : dlookup st.discovered_devices cfg.device_id = some r)
    (hfail : build_sensor_map cfg.epre cfg.supported_properties st.entities = []) :
    (discover_single_device st cfg now).2 = none ∧
    dlookup (get_discovered_devices (discover_single_device st cfg now).1)
        cfg.device_id = some r ∧
    dlookup (discover_single_device st cfg now).1.failed_devices cfg.device_id
      = some now := by
  have hpair : discover_single_device st cfg now =
      ({ st with failed_devices := dinsert st.failed_devices cfg.device_id now }, none) := by
    unfold discover_single_device
    dsimp only
    rw [hfail]
    rfl
  rw [hpair]
  refine ⟨rfl, hprev, ?_⟩
  rw [show ({ st with
      failed_devices := dinsert st.failed_devices cfg.device_id now } :
        DiscoveryState).failed_devices = dinsert st.failed_devices cfg.device_id now
    from rfl]
  rw [dlookup_dinsert, if_pos rfl]

/-- C10 (witness): the stale-mapping theorem applied to a state whose
loaded entities no longer match the previously discovered device. -/
theorem c10_witness :
    (discover_single_device c10st c10cfg 5).2 = none ∧
    dlookup (get_discovered_devices (discover_single_device c10st c10cfg 5).1)
        c10cfg.device_id = some c10res := by
  have h := c10_stale_mapping_retained c10st c10cfg 5 c10res (by decide) (by decide)
  exact ⟨h.1, h.2.1⟩

/-- An element of an overwriting insert is either an old binding or the
inserted one. -/
theorem mem_dinsert {V : Type} (l : Dict V) (k : String) (v : V) (pr : String × V)
    (h : pr ∈ dinsert l k v) : pr ∈ l ∨ pr = (k, v) := by
  induction l with
  | nil =>
      simp only [dinsert, List.mem_singleton] at h
      exact Or.inr h
  | cons hd tl ih =>
      obtain ⟨k0, v0⟩ := hd
      by_cases h0 : k0 = k
      · subst h0
        simp only [dinsert, if_pos rfl] at h
        cases h with
        | head => exact Or.inr rfl
        | tail _ h2 => exact Or.inl (List.mem_cons_of_mem _ h2)
      · simp only [dinsert, if_neg h0] at h
        cases h with
        | head => exact Or.inl (List.mem_cons_self _ _)
        | tail _ h2 =>
            cases ih h2 with
            | inl h3 => exact Or.inl (List.mem_cons_of_mem _ h3)
            | inr h4 => exact Or.inr h4

/-- Soundness of the sensor map: every binding was produced by a
successful, supported resolution. -/
theorem build_mem (epre : String) (supported : List String) (entities : List String)
    (pr : String × String) (h : pr ∈ build_sensor_map epre supported entities) :
    resolveEntity epre pr.2 = some pr.1 ∧ pr.1 ∈ supported := by
  suffices haux : ∀ m : Dict String, pr ∈ entities.foldl (mapStep epre supported) m →
      pr ∈ m ∨ (resolveEntity epre pr.2 = some pr.1 ∧ pr.1 ∈ supported) by
    rcases haux [] h with hmem | hok
    · simp at hmem
    · exact hok
  clear h
  induction entities with
  | nil => exact fun m hm => Or.inl hm
  | cons e es ih =>
      intro m hm
      rw [List.foldl_cons] at hm
      rcases ih (mapStep epre supported m e) hm with hstep | hok
      · cases hre : resolveEntity epre e with
        | none =>
            simp only [mapStep, hre] at hstep
            exact Or.inl hstep
        | some q =>
            by_cases hq : q ∈ supported
            · simp only [mapStep, hre, if_pos hq] at hstep
              rcases mem_dinsert _ _ _ _ hstep with h1 | h2
              · exact Or.inl h1
              · subst h2
                exact Or.inr ⟨hre, hq⟩
            · simp only [mapStep, hre, if_neg hq] at hstep
              exact Or.inl hstep
      · exact Or.inr hok

theorem olookup_none {V : Type} (x : Option V) : olookup x none = x := by
  cases x <;> rfl

/-- Lookup in the sensor-map fold: the last matching entity wins,
falling back to the accumulator. -/
theorem dlookup_build_aux (epre : String) (supported : List String)
    (entities : List String) (m : Dict String) (p : String) :
    dlookup (entities.foldl (mapStep epre supported) m) p =
      olookup ((entities.filter (matchesB epre supported p)).getLast?) (dlookup m p) := by
  induction entities generalizing m with
  | nil => rfl
  | cons e es ih =>
      rw [List.foldl_cons, ih]
      by_cases hme : matchesB epre supported p e = true
      · have hparts : resolveEntity epre e = some p ∧ p ∈ supported := by
          have := hme
          unfold matchesB at this
          rw [Bool.and_eq_true, beq_iff_eq, decide_eq_true_eq] at this
          exact this
        have hstep : dlookup (mapStep epre supported m e) p = some e := by
          simp only [mapStep, hparts.1]
          rw [if_pos hparts.2, dlookup_dinsert, if_pos rfl]
        rw [List.filter_cons_of_pos hme, hstep]
        cases hfe : es.filter (matchesB epre supported p) with
        | nil => rfl
        | cons x xs =>
            obtain ⟨y, hy⟩ : ∃ y, (x :: xs).getLast? = some y := by
              cases hxs : (x :: xs).getLast? with
              | some y => exact ⟨y, rfl⟩
              | none => simp at hxs
            rw [List.getLast?_cons_cons, hy]
            rfl
      · have hstep : dlookup (mapStep epre supported m e) p = dlookup m p := by
          rw [mapStep]
          cases hre : resolveEntity epre e with
          | none => rfl
          | some q =>
              dsimp only
              by_cases hq : q ∈ supported
              · rw [if_pos hq, dlookup_dinsert, if_neg ?_]
                intro hpq
                apply hme
                unfold matchesB
                rw [hre, hpq, Bool.and_eq_true, beq_iff_eq, decide_eq_true_eq]
                exact ⟨rfl, hpq ▸ hq⟩
              · rw [if_neg hq]
        rw [List.filter_cons_of_neg hme, hstep]

/-- C3 (counterexample): two entities can resolve to the same property;
the later one overwrites the earlier, so the output does NOT contain
every (property, entity) pair satisfying the claim's conditions.  Entity
`switch.dev_a_on_p_7_1` satisfies them all, yet is absent from the map
built over a list that also contains `switch.dev_a_x_on_p_7_1`. -/
theorem c3_counterexample :
    (resolveEntity "dev_a" "switch.dev_a_on_p_7_1" = some "state1" ∧
      "state1" ∈ ["state1"]) ∧
    ("state1", "switch.dev_a_on_p_7_1") ∉
      build_sensor_map "dev_a" ["state1"]
        ["switch.dev_a_on_p_7_1", "switch.dev_a_x_on_p_7_1"] := by
  decide

/-- C3 (amended): for each property name the output binds it to the LAST
entity in the collection satisfying the conditions (recognized domain,
prefix containment, suffix resolution — exact match first, then first
substring key in table order — and membership in the supported set),
later matches overwriting earlier ones; and every binding in the output
satisfies those conditions (no other pairs appear). -/
theorem c3_mapper_lastmatch (epre : String) (supported : List String)
    (entities : List String) (p : String) :
    dlookup (build_sensor_map epre supported entities) p =
      (entities.filter (matchesB epre supported p)).getLast? ∧
    (∀ pr ∈ build_sensor_map epre supported entities,
       resolveEntity epre pr.2 = some pr.1 ∧ pr.1 ∈ supported) := by
  constructor
  · have h := dlookup_build_aux epre supported entities [] p
    exact h.trans (olookup_none _)
  · exact fun pr hpr => build_mem epre supported entities pr hpr

/-- C3 (witness): the mapper characterization applied to the
two-colliding-entities list; the lookup picks the later entity and that
binding satisfies the matching conditions. -/
theorem c3_witness :
    dlookup (build_sensor_map "dev_a" ["state1"]
        ["switch.dev_a_on_p_7_1", "switch.dev_a_x_on_p_7_1"]) "state1" =
      (["switch.dev_a_on_p_7_1", "switch.dev_a_x_on_p_7_1"].filter
        (matchesB "dev_a" ["state1"] "state1")).getLast? ∧
    (resolveEntity "dev_a" "switch.dev_a_x_on_p_7_1" = some "state1" ∧
      "state1" ∈ ["state1"]) := by
  have h := c3_mapper_lastmatch "dev_a" ["state1"]
    ["switch.dev_a_on_p_7_1", "switch.dev_a_x_on_p_7_1"] "state1"
  exact ⟨h.1, h.2 ("state1", "switch.dev_a_x_on_p_7_1") (by decide)⟩

end Ha163

